import Mathlib

/-!
# Verification of the WiFi speed test measurement engine

Shallow embedding of `src/js/speedtest.js`. The network and the clock are
modelled as explicit environments: every `fetch` is replaced by its observable
outcome (did the promise resolve, how many bytes the body carried), and every
`performance.now()` difference by the rational number the clock would have
produced. JavaScript numbers are modelled as `ℚ`; byte counts as `ℕ`.
-/

/-- One entry of `CONFIG.DOWNLOAD_TESTS`: a candidate server URL together with
the declared size in bytes of the payload each stream is expected to fetch. -/
structure DownloadTest where
  url : String
  size : ℕ
deriving DecidableEq

/-- `CONFIG.DOWNLOAD_TESTS` from the source: primary candidate (50 MB) and
fallback candidate (100 MB), tried in this order. -/
def CONFIG_DOWNLOAD_TESTS : List DownloadTest :=
  [{ url := "https://speed.cloudflare.com/__down?bytes=50000000", size := 50 * 1024 * 1024 },
   { url := "https://proof.ovh.net/files/100Mb.dat", size := 100 * 1024 * 1024 }]

/-- `CONFIG.UPLOAD_SIZE`: 64 KiB, the maximum safe single-call size for
`crypto.getRandomValues`. -/
def UPLOAD_SIZE : ℕ := 64 * 1024

/-- `CONFIG.NUM_DOWNLOAD_STREAMS`: number of parallel download connections. -/
def NUM_DOWNLOAD_STREAMS : ℕ := 4

/-! ## Latency probe (`testPing`) -/

/-- Successful attempts push their elapsed time; a thrown fetch is caught and
discarded, so the collected list is the in-order `filterMap` of the attempts'
outcomes. `env i = some t` means attempt `i`'s fetch resolved after `t` ms,
`env i = none` means it threw. -/
def pingsOf (attempts : ℕ) (env : ℕ → Option ℚ) : List ℚ :=
  (List.range attempts).filterMap env

/-- The body of `testPing` with the loop bound as a parameter (the source fixes
`const attempts = 3`). Returns `null` when no attempt succeeded, otherwise
`pings.reduce((a, b) => a + b, 0) / pings.length`. -/
def testPingN (attempts : ℕ) (env : ℕ → Option ℚ) : Option ℚ :=
  let pings := pingsOf attempts env
  if pings.length = 0 then none
  else some (pings.foldl (· + ·) 0 / (pings.length : ℚ))

/-- `testPing` as in the source: exactly 3 attempts. -/
def testPing (env : ℕ → Option ℚ) : Option ℚ :=
  testPingN 3 env

/-! ## Throughput probe (`testDownload`) -/

/-- Observable behaviour of one download stream's fetch: whether it resolved
with an ok status and a readable body, and how many bytes that body actually
contained (the source never inspects this count). -/
structure StreamBehavior where
  ok : Bool
  actualBytes : ℕ
deriving DecidableEq

/-- Environment of one candidate attempt: the behaviour of each of the
concurrent streams, and the seconds the wall clock reports between this
candidate's `start = performance.now()` and the aggregation point
(`(performance.now() - start) / 1000`). -/
structure CandidateEnv where
  streams : ℕ → StreamBehavior
  elapsedSec : ℚ

/-- The settled value of one stream's promise: a fulfilled stream returns the
declared `test.size` (the source comments that it does not count actual body
bytes); a failed stream rejects, modelled as `none`. -/
def streamResult (test : DownloadTest) (b : StreamBehavior) : Option ℕ :=
  if b.ok then some test.size else none

/-- The `Promise.allSettled` result list for one candidate: one settled outcome
per launched stream, in stream order. -/
def attemptResults (test : DownloadTest) (env : CandidateEnv) : List (Option ℕ) :=
  (List.range NUM_DOWNLOAD_STREAMS).map fun i => streamResult test (env.streams i)

/-- `totalReceivedBytes`: sum of the fulfilled streams' values. -/
def totalReceivedBytes (rs : List (Option ℕ)) : ℕ :=
  (rs.filterMap id).sum

/-- `successStreams`: how many streams fulfilled. -/
def successStreams (rs : List (Option ℕ)) : ℕ :=
  (rs.filterMap id).length

/-- `speedMbps = ((totalBytes * 8) / duration) / (1024 * 1024)`. -/
def speedMbps (totalBytes : ℕ) (durationSec : ℚ) : ℚ :=
  ((totalBytes : ℚ) * 8 / durationSec) / (1024 * 1024)

/-- One candidate attempt: if no stream succeeded the `throw` is caught by the
surrounding `catch` and the loop continues (`none`); otherwise the aggregate
speed is computed and returned. -/
def attemptCandidate (test : DownloadTest) (env : CandidateEnv) : Option ℚ :=
  let rs := attemptResults test env
  if successStreams rs = 0 then none
  else some (speedMbps (totalReceivedBytes rs) env.elapsedSec)

/-- The values passed to `progressCallback` during one candidate attempt: each
fulfilled stream increments `completedStreams` and reports
`(completedStreams / NUM_DOWNLOAD_STREAMS) * 100`, so the k-th success reports
`(k / 4) * 100`. Failed streams report nothing. -/
def candidateProgressEvents (test : DownloadTest) (env : CandidateEnv) : List ℚ :=
  (List.range (successStreams (attemptResults test env))).map
    fun k => (((k + 1 : ℕ) : ℚ) / (NUM_DOWNLOAD_STREAMS : ℚ)) * 100

/-- `testDownload` over an explicit candidate list (the source iterates
`CONFIG.DOWNLOAD_TESTS`; each candidate records its own fresh start time, hence
carries its own `CandidateEnv`). Returns the progress-callback trace together
with the returned value: the first candidate with a successful stream returns
its speed immediately; a fully failed candidate falls through to the next;
an exhausted list returns `null`. -/
def testDownloadTrace : List (DownloadTest × CandidateEnv) → List ℚ × Option ℚ
  | [] => ([], none)
  | (t, e) :: rest =>
    match attemptCandidate t e with
    | some s => (candidateProgressEvents t e, some s)
    | none =>
      let r := testDownloadTrace rest
      (candidateProgressEvents t e ++ r.1, r.2)

/-- The value `testDownload` returns. -/
def testDownload (l : List (DownloadTest × CandidateEnv)) : Option ℚ :=
  (testDownloadTrace l).2

/-! ## Orchestrator (`runSpeedTest`) -/

/-- The mutable `results` object of `runSpeedTest`. -/
structure Results where
  ping : Option ℚ
  download : Option ℚ
  upload : Option ℚ
deriving DecidableEq

/-- Terminal state of one run: `showResults` (completed) or `showError`. -/
inductive RunStatus where
  | completed : RunStatus
  | failed : String → RunStatus
deriving DecidableEq

/-- The message of the error thrown when `testDownload` returns `null`. -/
def downloadFailMsg : String :=
  "Download test failed - unable to reach test servers or all streams failed."

/-- Everything one run exposes: the sequence of `updateProgress` percentages in
emission order, the final `results` record, and the terminal status. -/
structure RunState where
  trace : List ℚ
  results : Results
  status : RunStatus

/-- `runSpeedTest`: `showLoading` emits progress 0; the latency phase emits 10,
then 20; `testDownload`'s callback emits `20 + progress * 0.5`; on success
`results.upload` is set to `null` (upload disabled) and progress 100 is
emitted before `showResults`; on `null` download the thrown error is caught
and `showError` runs without any further progress emission. -/
def runSpeedTest (pingEnv : ℕ → Option ℚ) (dl : List (DownloadTest × CandidateEnv)) :
    RunState :=
  let p := testPing pingEnv
  let dlTrace := (testDownloadTrace dl).1.map fun x => 20 + x * (1 / 2)
  match (testDownloadTrace dl).2 with
  | none =>
    { trace := [0, 10, 20] ++ dlTrace
      results := { ping := p, download := none, upload := none }
      status := RunStatus.failed downloadFailMsg }
  | some s =>
    { trace := ([0, 10, 20] ++ dlTrace) ++ [100]
      results := { ping := p, download := some s, upload := none }
      status := RunStatus.completed }

/-! ## Payload generation (`testUpload`) -/

/-- The payload generation the program performs, from `testUpload`:
`const data = new Uint8Array(CONFIG.UPLOAD_SIZE); crypto.getRandomValues(data)`
— one single entropy-source call on a buffer of the fixed size `UPLOAD_SIZE`
(64 KiB, itself the maximum safe single-call size). There is no size
parameter, no splitting into sub-generations and no concatenation. `rand c` is
the byte sequence the entropy source writes for one call of `c` bytes. -/
def uploadPayload (rand : ℕ → List ℕ) : List ℕ :=
  rand UPLOAD_SIZE

/-! ## Auxiliary definition used to state byte-count independence -/

/-- Replace every stream's actual body byte count, keeping success flags and
elapsed time: used to state that the aggregate ignores actual body sizes. -/
def withBytes (e : CandidateEnv) (f : ℕ → ℕ) : CandidateEnv :=
  { streams := fun i => { ok := (e.streams i).ok, actualBytes := f i }
    elapsedSec := e.elapsedSec }

/-! ## Concrete inputs used by the witnesses and the counterexample -/

/-- A candidate whose streams each declare 128 KiB. -/
def tW1 : DownloadTest := { url := "https://primary.example/payload", size := 131072 }

/-- All four streams succeed; elapsed 2 seconds. -/
def eW1 : CandidateEnv := { streams := fun _ => ⟨true, 131072⟩, elapsedSec := 2 }

def tW2 : DownloadTest := { url := "https://primary.example/payload", size := 1000 }

/-- Streams 0, 1, 2 succeed; stream 3 fails; elapsed 1 second. -/
def eW2 : CandidateEnv :=
  { streams := fun i => if i = 3 then ⟨false, 0⟩ else ⟨true, 1000⟩, elapsedSec := 1 }

def tW3a : DownloadTest := { url := "https://primary.example/payload", size := 800 }

def tW3b : DownloadTest := { url := "https://fallback.example/payload", size := 900 }

/-- Every stream fails. -/
def eW3fail : CandidateEnv := { streams := fun _ => ⟨false, 0⟩, elapsedSec := 3 }

/-- Every stream succeeds; elapsed 5 seconds. -/
def eW3ok : CandidateEnv := { streams := fun _ => ⟨true, 900⟩, elapsedSec := 5 }

/-- A latency environment in which every attempt succeeds. -/
def pingEnvW4 : ℕ → Option ℚ := fun _ => some 25

/-- Latency attempts: the first succeeds in 10 ms, the second throws, the
third succeeds in 12 ms. -/
def pingEnvW5 : ℕ → Option ℚ := fun i => if i = 1 then none else some (10 + i)

def tA6 : DownloadTest := { url := "https://primary.example/payload", size := 131072 }

def tB6 : DownloadTest := { url := "https://fallback.example/payload", size := 131072 }

/-- All four streams succeed but the clock reports zero elapsed seconds. -/
def eZero6 : CandidateEnv := { streams := fun _ => ⟨true, 131072⟩, elapsedSec := 0 }

/-- All four streams succeed; elapsed 1 second. -/
def eOne6 : CandidateEnv := { streams := fun _ => ⟨true, 131072⟩, elapsedSec := 1 }

/-- An entropy source that writes `c` zero bytes when called on a `c`-byte
buffer. -/
def randW8 : ℕ → List ℕ := fun c => List.replicate c 0

def tW10 : DownloadTest := { url := "https://primary.example/payload", size := 131072 }

/-- All four streams succeed with bodies of the declared size; elapsed 1 s. -/
def eW10 : CandidateEnv := { streams := fun _ => ⟨true, 131072⟩, elapsedSec := 1 }

/-! ## Helper lemmas -/

/-- At most `NUM_DOWNLOAD_STREAMS` streams can succeed. -/
theorem successStreams_le (t : DownloadTest) (e : CandidateEnv) :
    successStreams (attemptResults t e) ≤ NUM_DOWNLOAD_STREAMS := by
  calc successStreams (attemptResults t e) ≤ (attemptResults t e).length :=
        List.length_filterMap_le _ _
    _ = NUM_DOWNLOAD_STREAMS := by simp [attemptResults]

/-- Every fulfilled stream's settled value is the declared size. -/
theorem mem_attemptResults_filterMap (t : DownloadTest) (e : CandidateEnv) (x : ℕ)
    (hx : x ∈ (attemptResults t e).filterMap id) : x = t.size := by
  simp only [attemptResults, List.mem_filterMap, List.mem_map, List.mem_range, id] at hx
  obtain ⟨o, ⟨i, _, rfl⟩, ho⟩ := hx
  unfold streamResult at ho
  split at ho
  · exact (Option.some_inj.mp ho).symm
  · exact absurd ho (Option.noConfusion)

/-- The aggregate byte total is the success count times the declared size. -/
theorem totalReceivedBytes_eq (t : DownloadTest) (e : CandidateEnv) :
    totalReceivedBytes (attemptResults t e) =
      successStreams (attemptResults t e) * t.size := by
  unfold totalReceivedBytes successStreams
  rw [List.sum_eq_card_nsmul _ t.size (mem_attemptResults_filterMap t e), smul_eq_mul]

/-- Zero streams succeed exactly when every stream's fetch fails. -/
theorem successStreams_eq_zero_iff (t : DownloadTest) (e : CandidateEnv) :
    successStreams (attemptResults t e) = 0 ↔
      ∀ i < NUM_DOWNLOAD_STREAMS, (e.streams i).ok = false := by
  unfold successStreams
  rw [List.length_eq_zero, List.filterMap_eq_nil_iff]
  constructor
  · intro h i hi
    have := h (streamResult t (e.streams i)) (by
      simp only [attemptResults, List.mem_map, List.mem_range]
      exact ⟨i, hi, rfl⟩)
    unfold streamResult at this
    split at this
    · exact absurd this (Option.noConfusion)
    · simpa using Bool.eq_false_iff.mpr (by assumption)
  · intro h o ho
    simp only [attemptResults, List.mem_map, List.mem_range] at ho
    obtain ⟨i, hi, rfl⟩ := ho
    simp [streamResult, h i hi]

/-- A candidate is skipped exactly when all of its streams fail. -/
theorem attemptCandidate_eq_none_iff (t : DownloadTest) (e : CandidateEnv) :
    attemptCandidate t e = none ↔
      ∀ i < NUM_DOWNLOAD_STREAMS, (e.streams i).ok = false := by
  rw [← successStreams_eq_zero_iff t e]
  by_cases h : successStreams (attemptResults t e) = 0
  · simp [attemptCandidate, h]
  · simp [attemptCandidate, h]

/-- A candidate with at least one successful stream yields the aggregate speed
computed from the success count times the declared size and its own elapsed
time. -/
theorem attemptCandidate_eq_some (t : DownloadTest) (e : CandidateEnv)
    (h : ∃ i, i < NUM_DOWNLOAD_STREAMS ∧ (e.streams i).ok = true) :
    attemptCandidate t e =
      some (speedMbps (successStreams (attemptResults t e) * t.size) e.elapsedSec) := by
  obtain ⟨i, hi, hok⟩ := h
  have hne : ¬ successStreams (attemptResults t e) = 0 := by
    rw [successStreams_eq_zero_iff]
    intro hall
    exact absurd hok (by simp [hall i hi])
  unfold attemptCandidate
  rw [if_neg hne, totalReceivedBytes_eq]

/-- A skipped candidate (all streams failed) emits no progress events. -/
theorem candidateProgressEvents_of_none (t : DownloadTest) (e : CandidateEnv)
    (h : attemptCandidate t e = none) : candidateProgressEvents t e = [] := by
  have h0 : successStreams (attemptResults t e) = 0 := by
    rw [successStreams_eq_zero_iff]
    exact (attemptCandidate_eq_none_iff t e).mp h
  simp [candidateProgressEvents, h0]

/-- Every progress value emitted during one candidate attempt lies in
`[25, 100]`. -/
theorem candidateProgressEvents_bounds (t : DownloadTest) (e : CandidateEnv) (x : ℚ)
    (hx : x ∈ candidateProgressEvents t e) : 25 ≤ x ∧ x ≤ 100 := by
  simp only [candidateProgressEvents, List.mem_map, List.mem_range] at hx
  obtain ⟨k, hk, rfl⟩ := hx
  have hk4 : k < NUM_DOWNLOAD_STREAMS := lt_of_lt_of_le hk (successStreams_le t e)
  have hkq : (k : ℚ) ≤ 3 := by
    have : k ≤ 3 := by
      unfold NUM_DOWNLOAD_STREAMS at hk4
      omega
    exact_mod_cast this
  have hkq0 : (0 : ℚ) ≤ (k : ℚ) := by positivity
  have hform : (((k + 1 : ℕ) : ℚ) / (NUM_DOWNLOAD_STREAMS : ℚ)) * 100 =
      25 * ((k : ℚ) + 1) := by
    unfold NUM_DOWNLOAD_STREAMS
    push_cast
    ring
  rw [hform]
  constructor
  · linarith
  · linarith

/-- Progress values emitted during one candidate attempt are non-decreasing. -/
theorem candidateProgressEvents_chain (t : DownloadTest) (e : CandidateEnv) :
    List.Chain' (· ≤ ·) (candidateProgressEvents t e) := by
  unfold candidateProgressEvents
  apply List.Pairwise.chain'
  refine List.Pairwise.map _ ?_ (List.pairwise_lt_range _)
  intro a b hab
  have hq : (a : ℚ) ≤ (b : ℚ) := by exact_mod_cast le_of_lt hab
  unfold NUM_DOWNLOAD_STREAMS
  push_cast
  have h4 : (0 : ℚ) < 4 := by norm_num
  rw [div_mul_eq_mul_div, div_mul_eq_mul_div, div_le_div_iff₀ h4 h4]
  nlinarith

/-- The progress trace of a whole download phase is either empty or exactly the
trace of the single candidate that succeeded. -/
theorem testDownloadTrace_fst_cases (l : List (DownloadTest × CandidateEnv)) :
    (testDownloadTrace l).1 = [] ∨
      ∃ t e, (testDownloadTrace l).1 = candidateProgressEvents t e := by
  induction l with
  | nil => left; rfl
  | cons p rest ih =>
    obtain ⟨t, e⟩ := p
    cases h : attemptCandidate t e with
    | some s =>
      right
      exact ⟨t, e, by simp [testDownloadTrace, h]⟩
    | none =>
      have hnil := candidateProgressEvents_of_none t e h
      rcases ih with h0 | ⟨t', e', h'⟩
      · left
        simp [testDownloadTrace, h, hnil, h0]
      · right
        exact ⟨t', e', by simp [testDownloadTrace, h, hnil, h']⟩

/-- The whole download-phase progress trace is non-decreasing and bounded in
`[25, 100]`. -/
theorem testDownloadTrace_fst_chain (l : List (DownloadTest × CandidateEnv)) :
    List.Chain' (· ≤ ·) (testDownloadTrace l).1 ∧
      ∀ x ∈ (testDownloadTrace l).1, 25 ≤ x ∧ x ≤ 100 := by
  rcases testDownloadTrace_fst_cases l with h | ⟨t, e, h⟩
  · simp [h]
  · rw [h]
    exact ⟨candidateProgressEvents_chain t e, candidateProgressEvents_bounds t e⟩

/-- The orchestrator's mapping `20 + progress * 0.5` keeps the download-phase
trace non-decreasing and inside `[20, 70]`. -/
theorem mappedTrace_chain (l : List (DownloadTest × CandidateEnv)) :
    List.Chain' (· ≤ ·) ((testDownloadTrace l).1.map fun x => 20 + x * (1 / 2)) ∧
      ∀ y ∈ (testDownloadTrace l).1.map fun x => 20 + x * (1 / 2),
        20 ≤ y ∧ y ≤ 70 := by
  obtain ⟨hc, hb⟩ := testDownloadTrace_fst_chain l
  constructor
  · rw [List.chain'_map]
    exact hc.imp fun a b hab => by linarith
  · intro y hy
    simp only [List.mem_map] at hy
    obtain ⟨x, hx, rfl⟩ := hy
    obtain ⟨h25, h100⟩ := hb x hx
    constructor <;> linarith

/-- `runSpeedTest` when the download phase returns `null`. -/
theorem runSpeedTest_eq_failed (penv : ℕ → Option ℚ)
    (l : List (DownloadTest × CandidateEnv)) (h : (testDownloadTrace l).2 = none) :
    runSpeedTest penv l =
      { trace := [0, 10, 20] ++ (testDownloadTrace l).1.map fun x => 20 + x * (1 / 2)
        results := { ping := testPing penv, download := none, upload := none }
        status := RunStatus.failed downloadFailMsg } := by
  unfold runSpeedTest
  rw [h]

/-- `runSpeedTest` when the download phase returns a speed. -/
theorem runSpeedTest_eq_completed (penv : ℕ → Option ℚ)
    (l : List (DownloadTest × CandidateEnv)) (s : ℚ)
    (h : (testDownloadTrace l).2 = some s) :
    runSpeedTest penv l =
      { trace := ([0, 10, 20] ++ (testDownloadTrace l).1.map fun x => 20 + x * (1 / 2))
            ++ [100]
        results := { ping := testPing penv, download := some s, upload := none }
        status := RunStatus.completed } := by
  unfold runSpeedTest
  rw [h]

/-- Reduction of `testDownloadTrace` on a skipped candidate. -/
theorem testDownloadTrace_cons_none (t : DownloadTest) (e : CandidateEnv)
    (rest : List (DownloadTest × CandidateEnv)) (h : attemptCandidate t e = none) :
    testDownloadTrace ((t, e) :: rest) =
      (candidateProgressEvents t e ++ (testDownloadTrace rest).1,
        (testDownloadTrace rest).2) := by
  simp only [testDownloadTrace, h]

/-- Reduction of `testDownloadTrace` on a successful candidate. -/
theorem testDownloadTrace_cons_some (t : DownloadTest) (e : CandidateEnv)
    (rest : List (DownloadTest × CandidateEnv)) (s : ℚ)
    (h : attemptCandidate t e = some s) :
    testDownloadTrace ((t, e) :: rest) = (candidateProgressEvents t e, some s) := by
  simp only [testDownloadTrace, h]

/-- If every stream of every candidate fails, `testDownload` returns `null`. -/
theorem testDownload_eq_none_of_all_fail (l : List (DownloadTest × CandidateEnv))
    (h : ∀ p ∈ l, ∀ i < NUM_DOWNLOAD_STREAMS, ((p.2).streams i).ok = false) :
    testDownload l = none := by
  induction l with
  | nil => rfl
  | cons p rest ih =>
    obtain ⟨t, e⟩ := p
    have hnone : attemptCandidate t e = none :=
      (attemptCandidate_eq_none_iff t e).mpr (h (t, e) (List.mem_cons_self _ _))
    have hrest : testDownload rest = none :=
      ih fun q hq => h q (List.mem_cons_of_mem _ hq)
    unfold testDownload
    rw [testDownloadTrace_cons_none t e rest hnone]
    exact hrest

/-- A prefix of candidates whose streams all fail is skipped. -/
theorem testDownload_append_all_fail (l₁ l₂ : List (DownloadTest × CandidateEnv))
    (h : ∀ p ∈ l₁, ∀ i < NUM_DOWNLOAD_STREAMS, ((p.2).streams i).ok = false) :
    testDownload (l₁ ++ l₂) = testDownload l₂ := by
  induction l₁ with
  | nil => rfl
  | cons p rest ih =>
    obtain ⟨t, e⟩ := p
    have hnone : attemptCandidate t e = none :=
      (attemptCandidate_eq_none_iff t e).mpr (h (t, e) (List.mem_cons_self _ _))
    have hrest := ih fun q hq => h q (List.mem_cons_of_mem _ hq)
    have hcons : ((t, e) :: rest) ++ l₂ = (t, e) :: (rest ++ l₂) := rfl
    rw [hcons]
    unfold testDownload
    rw [testDownloadTrace_cons_none t e (rest ++ l₂) hnone]
    exact hrest

/-- A candidate with at least one successful stream returns immediately,
whatever candidates follow. -/
theorem testDownload_cons_success (t : DownloadTest) (e : CandidateEnv)
    (rest : List (DownloadTest × CandidateEnv))
    (h : ∃ i, i < NUM_DOWNLOAD_STREAMS ∧ (e.streams i).ok = true) :
    testDownload ((t, e) :: rest) =
      some (speedMbps (successStreams (attemptResults t e) * t.size) e.elapsedSec) := by
  unfold testDownload
  rw [testDownloadTrace_cons_some t e rest _ (attemptCandidate_eq_some t e h)]

/-- When all streams succeed, every settled value is the declared size. -/
theorem attemptResults_all_ok (t : DownloadTest) (e : CandidateEnv)
    (h : ∀ i < NUM_DOWNLOAD_STREAMS, (e.streams i).ok = true) :
    attemptResults t e = List.replicate NUM_DOWNLOAD_STREAMS (some t.size) := by
  refine List.eq_replicate_iff.mpr ⟨by simp [attemptResults], ?_⟩
  intro b hb
  simp only [attemptResults, List.mem_map, List.mem_range] at hb
  obtain ⟨i, hi, rfl⟩ := hb
  simp [streamResult, h i hi]

/-- `filterMap id` strips a list of defined options. -/
theorem filterMap_id_replicate (n a : ℕ) :
    (List.replicate n (some a)).filterMap id = List.replicate n a := by
  induction n with
  | zero => rfl
  | succ n ih => simp [List.replicate_succ, ih]

/-- Changing the streams' actual body byte counts changes nothing the
aggregation reads: the settled values only depend on the success flags. -/
theorem attemptResults_withBytes (t : DownloadTest) (e : CandidateEnv) (f : ℕ → ℕ) :
    attemptResults t (withBytes e f) = attemptResults t e := by
  simp [attemptResults, streamResult, withBytes]

/-- A candidate attempt's outcome ignores actual body byte counts. -/
theorem attemptCandidate_withBytes (t : DownloadTest) (e : CandidateEnv) (f : ℕ → ℕ) :
    attemptCandidate t (withBytes e f) = attemptCandidate t e := by
  unfold attemptCandidate
  rw [attemptResults_withBytes]
  rfl

/-- The whole download phase's returned value ignores actual body byte
counts. -/
theorem testDownload_withBytes (l : List (DownloadTest × CandidateEnv)) (f : ℕ → ℕ) :
    testDownload (l.map fun p => (p.1, withBytes p.2 f)) = testDownload l := by
  induction l with
  | nil => rfl
  | cons p rest ih =>
    obtain ⟨t, e⟩ := p
    cases h : attemptCandidate t e with
    | some s =>
      have h' : attemptCandidate t (withBytes e f) = some s := by
        rw [attemptCandidate_withBytes, h]
      unfold testDownload
      rw [List.map_cons, testDownloadTrace_cons_some _ _ _ _ h',
        testDownloadTrace_cons_some _ _ _ _ h]
    | none =>
      have h' : attemptCandidate t (withBytes e f) = none := by
        rw [attemptCandidate_withBytes, h]
      unfold testDownload
      rw [List.map_cons, testDownloadTrace_cons_none _ _ _ h',
        testDownloadTrace_cons_none _ _ _ h]
      exact ih

/-! ## Claim theorems -/

/-- C1: for a single candidate with concurrency 4, if all 4 streams succeed
with declared size S each, `testDownload` returns exactly
`(4*S*8)/(elapsed*1024*1024)` megabits per second, where elapsed is the
candidate's recorded wall-clock seconds from start to aggregation. -/
theorem C1_download_four_streams_formula (t : DownloadTest) (e : CandidateEnv)
    (h : ∀ i < NUM_DOWNLOAD_STREAMS, (e.streams i).ok = true) :
    testDownload [(t, e)] =
      some ((4 * (t.size : ℚ) * 8) / (e.elapsedSec * (1024 * 1024))) := by
  have hs : successStreams (attemptResults t e) = 4 := by
    rw [attemptResults_all_ok t e h]
    unfold successStreams
    rw [filterMap_id_replicate]
    simp [NUM_DOWNLOAD_STREAMS]
  rw [testDownload_cons_success t e []
    ⟨0, by norm_num [NUM_DOWNLOAD_STREAMS], h 0 (by norm_num [NUM_DOWNLOAD_STREAMS])⟩, hs]
  congr 1
  unfold speedMbps
  push_cast
  rw [div_div]

/-- Witness for C1: one candidate of 128 KiB per stream, all four streams
succeed, elapsed 2 seconds. -/
theorem C1_witness :
    (∀ i < NUM_DOWNLOAD_STREAMS, (eW1.streams i).ok = true) ∧
      testDownload [(tW1, eW1)] =
        some ((4 * (tW1.size : ℚ) * 8) / (eW1.elapsedSec * (1024 * 1024))) :=
  ⟨by decide, C1_download_four_streams_formula tW1 eW1 (by decide)⟩

/-- C2: if streams 0, 1, 2 succeed and stream 3 fails, the aggregate sums only
the 3 successful streams' declared bytes and the candidate is judged
successful: the speed over byte total `3 * size` is returned immediately, with
no failover to the remaining candidates. -/
theorem C2_partial_success_counts_successes (t : DownloadTest) (e : CandidateEnv)
    (rest : List (DownloadTest × CandidateEnv))
    (h0 : (e.streams 0).ok = true) (h1 : (e.streams 1).ok = true)
    (h2 : (e.streams 2).ok = true) (h3 : (e.streams 3).ok = false) :
    testDownload ((t, e) :: rest) = some (speedMbps (3 * t.size) e.elapsedSec) := by
  have hr : attemptResults t e = [some t.size, some t.size, some t.size, none] := by
    simp [attemptResults, NUM_DOWNLOAD_STREAMS, List.range_succ, streamResult,
      h0, h1, h2, h3]
  have hs : successStreams (attemptResults t e) = 3 := by
    rw [hr]
    rfl
  rw [testDownload_cons_success t e rest ⟨0, by norm_num [NUM_DOWNLOAD_STREAMS], h0⟩, hs]

/-- Witness for C2: a candidate declaring 1000 bytes per stream, streams 0–2
succeed, stream 3 fails, elapsed 1 second, one further candidate follows. -/
theorem C2_witness :
    ((eW2.streams 0).ok = true ∧ (eW2.streams 1).ok = true ∧
        (eW2.streams 2).ok = true ∧ (eW2.streams 3).ok = false) ∧
      testDownload [(tW2, eW2), (tW3b, eW3ok)] =
        some (speedMbps (3 * tW2.size) eW2.elapsedSec) :=
  ⟨by decide,
    C2_partial_success_counts_successes tW2 eW2 [(tW3b, eW3ok)]
      (by decide) (by decide) (by decide) (by decide)⟩

/-- C3: candidates are tried strictly in order: an all-failed prefix falls
through candidate by candidate, the next candidate is attempted with its own
freshly recorded start time (its own elapsed), and the first candidate with at
least one successful stream returns its computed speed immediately, whatever
candidates follow. -/
theorem C3_candidate_order (l₁ : List (DownloadTest × CandidateEnv))
    (t : DownloadTest) (e : CandidateEnv) (l₂ : List (DownloadTest × CandidateEnv))
    (hfail : ∀ p ∈ l₁, ∀ i < NUM_DOWNLOAD_STREAMS, ((p.2).streams i).ok = false)
    (hok : ∃ i, i < NUM_DOWNLOAD_STREAMS ∧ (e.streams i).ok = true) :
    testDownload (l₁ ++ (t, e) :: l₂) =
      some (speedMbps (successStreams (attemptResults t e) * t.size) e.elapsedSec) := by
  rw [testDownload_append_all_fail l₁ ((t, e) :: l₂) hfail,
    testDownload_cons_success t e l₂ hok]

/-- Witness for C3: candidate 1's four streams all fail, candidate 2's all
succeed; the returned speed is candidate 2's, using candidate 2's elapsed. -/
theorem C3_witness :
    (∀ p ∈ [(tW3a, eW3fail)], ∀ i < NUM_DOWNLOAD_STREAMS,
        ((p.2).streams i).ok = false) ∧
      testDownload ([(tW3a, eW3fail)] ++ (tW3b, eW3ok) :: []) =
        some (speedMbps (successStreams (attemptResults tW3b eW3ok) * tW3b.size)
          eW3ok.elapsedSec) :=
  ⟨by decide,
    C3_candidate_order [(tW3a, eW3fail)] tW3b eW3ok [] (by decide)
      ⟨0, by norm_num [NUM_DOWNLOAD_STREAMS], rfl⟩⟩

/-- C4: if every stream of every candidate fails, `testDownload` returns
`null` (it does not raise), and the orchestrator finishes in the failed state
with the download error message, whatever the latency probe returned. -/
theorem C4_all_exhausted_run_fails (penv : ℕ → Option ℚ)
    (l : List (DownloadTest × CandidateEnv))
    (h : ∀ p ∈ l, ∀ i < NUM_DOWNLOAD_STREAMS, ((p.2).streams i).ok = false) :
    testDownload l = none ∧
      (runSpeedTest penv l).status = RunStatus.failed downloadFailMsg := by
  have hd : testDownload l = none := testDownload_eq_none_of_all_fail l h
  refine ⟨hd, ?_⟩
  rw [runSpeedTest_eq_failed penv l hd]

/-- Witness for C4: every latency attempt succeeds (25 ms each) yet the run
fails because the single candidate's four streams all fail. -/
theorem C4_witness :
    testDownload [(tW3a, eW3fail)] = none ∧
      (runSpeedTest pingEnvW4 [(tW3a, eW3fail)]).status =
        RunStatus.failed downloadFailMsg :=
  C4_all_exhausted_run_fails pingEnvW4 [(tW3a, eW3fail)] (by decide)

/-- C5: for every attempts ≥ 1, the latency probe returns `null` iff zero
attempts succeeded, and otherwise returns the arithmetic mean of exactly the
successful attempts' elapsed times, failed attempts excluded from both the sum
and the count (a failed attempt never aborts the remaining ones: `pingsOf`
collects every successful attempt, whatever failed before it). -/
theorem C5_ping_mean_of_successes (attempts : ℕ) (env : ℕ → Option ℚ)
    (h : 1 ≤ attempts) :
    (testPingN attempts env = none ↔ pingsOf attempts env = []) ∧
      (pingsOf attempts env ≠ [] →
        testPingN attempts env =
          some ((pingsOf attempts env).sum / ((pingsOf attempts env).length : ℚ))) := by
  have hred : testPingN attempts env =
      if (pingsOf attempts env).length = 0 then none
      else some ((pingsOf attempts env).foldl (· + ·) 0 /
        ((pingsOf attempts env).length : ℚ)) := rfl
  by_cases hlen : (pingsOf attempts env).length = 0
  · have hnil : pingsOf attempts env = [] := List.length_eq_zero.mp hlen
    rw [hred, if_pos hlen]
    exact ⟨⟨fun _ => hnil, fun _ => rfl⟩, fun hne => absurd hnil hne⟩
  · have hne : pingsOf attempts env ≠ [] := fun hn => hlen (by rw [hn]; rfl)
    rw [hred, if_neg hlen]
    refine ⟨⟨fun hc => absurd hc (by simp), fun hc => absurd hc hne⟩, fun _ => ?_⟩
    rw [← List.sum_eq_foldl]

/-- Witness for C5 at the source's 3 attempts: attempt 0 succeeds in 10 ms,
attempt 1 throws, attempt 2 succeeds in 12 ms; the mean of the two successes
is returned. -/
theorem C5_witness :
    1 ≤ 3 ∧
      ((testPingN 3 pingEnvW5 = none ↔ pingsOf 3 pingEnvW5 = []) ∧
        (pingsOf 3 pingEnvW5 ≠ [] →
          testPingN 3 pingEnvW5 =
            some ((pingsOf 3 pingEnvW5).sum / ((pingsOf 3 pingEnvW5).length : ℚ)))) :=
  ⟨by norm_num, C5_ping_mean_of_successes 3 pingEnvW5 (by norm_num)⟩

/-- When all streams succeed, all `NUM_DOWNLOAD_STREAMS` streams count. -/
theorem successStreams_all_ok (t : DownloadTest) (e : CandidateEnv)
    (h : ∀ i < NUM_DOWNLOAD_STREAMS, (e.streams i).ok = true) :
    successStreams (attemptResults t e) = NUM_DOWNLOAD_STREAMS := by
  rw [attemptResults_all_ok t e h]
  unfold successStreams
  rw [filterMap_id_replicate]
  simp

/-- An element of `getLast?` is an element of the list. -/
theorem mem_of_mem_getLast' {α : Type} {l : List α} {x : α} (hx : x ∈ l.getLast?) :
    x ∈ l := by
  obtain ⟨h, rfl⟩ := List.mem_getLast?_eq_getLast hx
  exact List.getLast_mem h

/-- C6 (counterexample): the claim asserts that a zero (sub-epsilon) elapsed
time triggers an immediate retry with the next candidate instead of a division
by zero. On the two-candidate input where candidate A's four streams succeed
with elapsed 0 and candidate B's four streams succeed with elapsed 1,
`testDownload` divides by the zero elapsed and returns candidate A's value
(`0` in the ℚ model of JavaScript's division, `Infinity` in a browser) — it
does not return what trying candidate B would yield. -/
theorem C6_counterexample :
    testDownload [(tA6, eZero6), (tB6, eOne6)] = some 0 ∧
      testDownload [(tB6, eOne6)] = some 4 ∧
      testDownload [(tA6, eZero6), (tB6, eOne6)] ≠ testDownload [(tB6, eOne6)] := by
  have hz : testDownload [(tA6, eZero6), (tB6, eOne6)] = some 0 := by
    rw [testDownload_cons_success tA6 eZero6 [(tB6, eOne6)]
      ⟨0, by norm_num [NUM_DOWNLOAD_STREAMS], rfl⟩,
      successStreams_all_ok tA6 eZero6 (by decide)]
    have hsec : eZero6.elapsedSec = 0 := rfl
    unfold speedMbps
    rw [hsec]
    simp
  have h4 : testDownload [(tB6, eOne6)] = some 4 := by
    rw [testDownload_cons_success tB6 eOne6 []
      ⟨0, by norm_num [NUM_DOWNLOAD_STREAMS], rfl⟩,
      successStreams_all_ok tB6 eOne6 (by decide)]
    have hsec : eOne6.elapsedSec = 1 := rfl
    have hsz : tB6.size = 131072 := rfl
    unfold speedMbps
    rw [hsec, hsz, NUM_DOWNLOAD_STREAMS]
    norm_num
  refine ⟨hz, h4, ?_⟩
  rw [hz, h4]
  norm_num

/-- C6 (amended): `testDownload` applies no guard whatsoever to the elapsed
time. With at least one successful stream and an elapsed of exactly zero, it
still computes and returns this candidate's speed with the zero duration as
divisor (`Infinity` in a browser, `0` in the ℚ model) instead of retrying with
the next candidate. -/
theorem C6_no_subepsilon_guard (t : DownloadTest) (e : CandidateEnv)
    (rest : List (DownloadTest × CandidateEnv))
    (h : ∃ i, i < NUM_DOWNLOAD_STREAMS ∧ (e.streams i).ok = true)
    (hz : e.elapsedSec = 0) :
    testDownload ((t, e) :: rest) =
      some (speedMbps (successStreams (attemptResults t e) * t.size) 0) := by
  rw [testDownload_cons_success t e rest h, hz]

/-- Witness for the amended C6: candidate A's streams all succeed with zero
elapsed; the value is returned without retrying candidate B. -/
theorem C6_witness :
    testDownload [(tA6, eZero6), (tB6, eOne6)] =
      some (speedMbps (successStreams (attemptResults tA6 eZero6) * tA6.size) 0) :=
  C6_no_subepsilon_guard tA6 eZero6 [(tB6, eOne6)]
    ⟨0, by norm_num [NUM_DOWNLOAD_STREAMS], rfl⟩ rfl

/-- C7: within any single run the progress percentages emitted by the
orchestrator are monotonically non-decreasing, and the sequence contains 100%
exactly when the run completes — a failed run never reaches 100%. -/
theorem C7_progress_monotone_and_complete (penv : ℕ → Option ℚ)
    (dl : List (DownloadTest × CandidateEnv)) :
    List.Chain' (· ≤ ·) (runSpeedTest penv dl).trace ∧
      (100 ∈ (runSpeedTest penv dl).trace ↔
        (runSpeedTest penv dl).status = RunStatus.completed) := by
  obtain ⟨hchain, hbounds⟩ := mappedTrace_chain dl
  have hpre : List.Chain' (· ≤ ·)
      ([0, 10, 20] ++ (testDownloadTrace dl).1.map fun x => 20 + x * (1 / 2)) := by
    rw [List.chain'_append]
    refine ⟨by norm_num [List.chain'_cons, List.chain'_singleton], hchain, ?_⟩
    intro x hx y hy
    have hlast : ([0, 10, 20] : List ℚ).getLast? = some 20 := rfl
    rw [hlast] at hx
    have hx20 : (20 : ℚ) = x := by simpa using hx
    rw [← hx20]
    have hymem : y ∈ (testDownloadTrace dl).1.map fun x => 20 + x * (1 / 2) := by
      cases hmt : (testDownloadTrace dl).1.map fun x => 20 + x * (1 / 2) with
      | nil => rw [hmt] at hy; simp at hy
      | cons a tl =>
        rw [hmt] at hy
        have hya : a = y := by simpa using hy
        rw [← hya]
        exact List.mem_cons_self a tl
    exact (hbounds y hymem).1
  have hnot : (100 : ℚ) ∉
      ([0, 10, 20] ++ (testDownloadTrace dl).1.map fun x => 20 + x * (1 / 2)) := by
    intro hmem
    rcases List.mem_append.mp hmem with hmem | hmem
    · norm_num at hmem
    · have := (hbounds 100 hmem).2
      norm_num at this
  cases hd : (testDownloadTrace dl).2 with
  | none =>
    rw [runSpeedTest_eq_failed penv dl hd]
    refine ⟨hpre, ?_⟩
    constructor
    · intro hmem
      exact absurd hmem hnot
    · intro hst
      exact absurd hst (by simp)
  | some s =>
    rw [runSpeedTest_eq_completed penv dl s hd]
    constructor
    · rw [List.chain'_append]
      refine ⟨hpre, List.chain'_singleton 100, ?_⟩
      intro x hx y hy
      have hy100 : (100 : ℚ) = y := by simpa using hy
      rw [← hy100]
      have hxmem := mem_of_mem_getLast' hx
      rcases List.mem_append.mp hxmem with hmem | hmem
      · simp only [List.mem_cons, List.mem_singleton] at hmem
        rcases hmem with rfl | rfl | rfl | hfalse
        · norm_num
        · norm_num
        · norm_num
        · simp at hfalse
      · exact (hbounds x hmem).2.trans (by norm_num)
    · constructor
      · intro _
        rfl
      · intro _
        exact List.mem_append.mpr (Or.inr (List.mem_cons_self _ _))

/-- A returned download speed always comes from some candidate in the list
with a nonzero success count, computed from its success count times its
declared size and its own elapsed time. -/
theorem testDownload_some_structure :
    ∀ (l : List (DownloadTest × CandidateEnv)) (v : ℚ), testDownload l = some v →
      ∃ p ∈ l, ¬ successStreams (attemptResults p.1 p.2) = 0 ∧
        v = speedMbps (successStreams (attemptResults p.1 p.2) * (p.1).size)
          (p.2).elapsedSec := by
  intro l
  induction l with
  | nil =>
    intro v h
    exact Option.noConfusion h
  | cons p rest ih =>
    intro v h
    obtain ⟨t, e⟩ := p
    cases hat : attemptCandidate t e with
    | some s =>
      have hv : v = s := by
        unfold testDownload at h
        rw [testDownloadTrace_cons_some t e rest s hat] at h
        exact (Option.some_inj.mp h).symm
      have h1 : ¬ successStreams (attemptResults t e) = 0 := by
        intro h0
        rw [(attemptCandidate_eq_none_iff t e).mpr
          ((successStreams_eq_zero_iff t e).mp h0)] at hat
        exact Option.noConfusion hat
      have hs : s = speedMbps (successStreams (attemptResults t e) * t.size)
          e.elapsedSec := by
        unfold attemptCandidate at hat
        rw [if_neg h1, totalReceivedBytes_eq] at hat
        exact (Option.some_inj.mp hat).symm
      exact ⟨(t, e), List.mem_cons_self _ _, h1, hv.trans hs⟩
    | none =>
      have hrest : testDownload rest = some v := by
        unfold testDownload at h ⊢
        rw [testDownloadTrace_cons_none t e rest hat] at h
        exact h
      obtain ⟨q, hq, hrest'⟩ := ih v hrest
      exact ⟨q, List.mem_cons_of_mem _ hq, hrest'⟩

/-- C8 (code bug): the claimed `RandomPayloadGenerator.generate(totalSize)`
with sub-generation splitting does not exist in the program. The payload
generation the code performs (`testUpload`) is a single entropy call on a
buffer of the fixed size `UPLOAD_SIZE = 65536` — the single-call limit itself
— with no size parameter, no splitting and no concatenation: whenever the
entropy source fills a buffer of at most the limit, the payload is exactly
65536 bytes, never the 131072 bytes a `totalSize` above the limit would
require. -/
theorem C8_upload_payload_single_call (rand : ℕ → List ℕ)
    (h : ∀ c, c ≤ UPLOAD_SIZE → (rand c).length = c) :
    (uploadPayload rand).length = UPLOAD_SIZE ∧
      (uploadPayload rand).length ≠ 131072 := by
  have hl : (uploadPayload rand).length = UPLOAD_SIZE := h UPLOAD_SIZE le_rfl
  refine ⟨hl, ?_⟩
  rw [hl]
  norm_num [UPLOAD_SIZE]

/-- Witness for C8 at the failing input: with an entropy source writing zero
bytes, the program generates exactly 65536 bytes, not 131072. -/
theorem C8_witness :
    (uploadPayload randW8).length = UPLOAD_SIZE ∧
      (uploadPayload randW8).length ≠ 131072 :=
  C8_upload_payload_single_call randW8 (fun c hc => by simp [randW8])

/-- C9: the final result record's upload field is always `null`: no run,
completed or failed, ever produces a non-absent upload measurement. -/
theorem C9_upload_always_absent (penv : ℕ → Option ℚ)
    (dl : List (DownloadTest × CandidateEnv)) :
    (runSpeedTest penv dl).results.upload = none := by
  cases hd : (testDownloadTrace dl).2 with
  | none => rw [runSpeedTest_eq_failed penv dl hd]
  | some s => rw [runSpeedTest_eq_completed penv dl s hd]

/-- C10: every successful stream contributes exactly the candidate's declared
size to the aggregate, regardless of actual body byte counts (replacing them
all changes nothing), and every returned speed is computed from a byte total
of `successStreams * size` for some success count between 1 and the
concurrency. -/
theorem C10_declared_size_aggregate (l : List (DownloadTest × CandidateEnv)) (v : ℚ)
    (h : testDownload l = some v) :
    (∀ f : ℕ → ℕ, testDownload (l.map fun p => (p.1, withBytes p.2 f)) = some v) ∧
      ∃ p ∈ l, 1 ≤ successStreams (attemptResults p.1 p.2) ∧
        successStreams (attemptResults p.1 p.2) ≤ NUM_DOWNLOAD_STREAMS ∧
        totalReceivedBytes (attemptResults p.1 p.2) =
          successStreams (attemptResults p.1 p.2) * (p.1).size ∧
        v = speedMbps (successStreams (attemptResults p.1 p.2) * (p.1).size)
          (p.2).elapsedSec := by
  refine ⟨fun f => by rw [testDownload_withBytes l f]; exact h, ?_⟩
  obtain ⟨p, hp, h1, hv⟩ := testDownload_some_structure l v h
  exact ⟨p, hp, Nat.one_le_iff_ne_zero.mpr h1, successStreams_le p.1 p.2,
    totalReceivedBytes_eq p.1 p.2, hv⟩

/-- Witness for C10: a single candidate of 128 KiB per stream with all four
streams succeeding in 1 second. -/
theorem C10_witness :
    (∀ f : ℕ → ℕ,
        testDownload ([(tW10, eW10)].map fun p => (p.1, withBytes p.2 f)) =
          some (speedMbps (successStreams (attemptResults tW10 eW10) * tW10.size)
            eW10.elapsedSec)) ∧
      ∃ p ∈ [(tW10, eW10)], 1 ≤ successStreams (attemptResults p.1 p.2) ∧
        successStreams (attemptResults p.1 p.2) ≤ NUM_DOWNLOAD_STREAMS ∧
        totalReceivedBytes (attemptResults p.1 p.2) =
          successStreams (attemptResults p.1 p.2) * (p.1).size ∧
        speedMbps (successStreams (attemptResults tW10 eW10) * tW10.size)
            eW10.elapsedSec =
          speedMbps (successStreams (attemptResults p.1 p.2) * (p.1).size)
            (p.2).elapsedSec :=
  C10_declared_size_aggregate [(tW10, eW10)]
    (speedMbps (successStreams (attemptResults tW10 eW10) * tW10.size) eW10.elapsedSec)
    (testDownload_cons_success tW10 eW10 []
      ⟨0, by norm_num [NUM_DOWNLOAD_STREAMS], rfl⟩)
